import Mathlib

/-!
Shallow embedding of `tools/enhanced_code_interpreter.py`: a sandboxed,
stateful Python-snippet interpreter (`Tools.execute_code`, `Tools.view_state`,
`Tools.clear_state`) together with the two injected utility helpers
(`_quick_stats`, `_as_table`).

Python strings are modelled by Lean `String`; all string operations the code
uses (`split`, `strip`, slicing, `startswith`, substring containment,
`",".join`) are defined structurally over the underlying character list so
that every definition evaluates by kernel reduction.  Python dicts are
modelled by insertion-ordered association lists (`Dict`), matching CPython's
insertion-order semantics; the two top-level per-caller maps `_state` and
`_exec_counts` are modelled as functions from caller id.

The dynamic part — `exec(code, ns)` running arbitrary untrusted Python — is
abstracted by a `SnipBehavior`: the stdout the snippet produced, the
bindings it had made in the shared namespace dict at the moment the
coordinator resumed (on completion, on a raise, or at the timeout), the
outcome (completed / raised-with-trace / timed out), and the rendering of the
measured wall-clock time.  `execute_code` is then a pure function of the
configuration, the snippet behavior, the arguments and the tool state,
mirroring the Python control flow statement by statement.
-/

namespace EnhancedCodeInterpreter

/-- Runtime values stored in namespaces.  Python values are arbitrary; the
claims only need integers, strings, imported-module objects, the injected
helper functions and the `__builtins__` object, so the variant covers those. -/
inductive PyVal where
  | int (n : Int)
  | str (s : String)
  | module (name : String)
  | builtinFunc (name : String)
  | builtinsObj
deriving DecidableEq, Repr

/-- A Python dict with string keys: an insertion-ordered association list.
Keys are unique when built through `dinsert` from `[]`. -/
abbrev Dict := List (String × PyVal)

/-- `d[k] = v`: overwrite in place if `k` is present (keeping its position,
as CPython does), else append at the end. -/
def dinsert : Dict → String → PyVal → Dict
  | [], k, v => [(k, v)]
  | p :: ps, k, v => if p.1 == k then (k, v) :: ps else p :: dinsert ps k v

/-- `d.get(k)`: the value at `k`, if present. -/
def dget : Dict → String → Option PyVal
  | [], _ => none
  | p :: ps, k => if p.1 == k then some p.2 else dget ps k

/-- Split a character list at every occurrence of `c` (Python
`s.split(c)` semantics: `n` separators yield `n+1` pieces). -/
def splitOnChar (c : Char) : List Char → List (List Char)
  | [] => [[]]
  | x :: xs =>
    let r := splitOnChar c xs
    if x = c then [] :: r
    else match r with
      | [] => [[x]]
      | y :: ys => (x :: y) :: ys

/-- Python `s.split(",")` (for the single-character separators the code uses). -/
def pySplit (s : String) (c : Char) : List String :=
  (splitOnChar c s.data).map (fun l => ⟨l⟩)

/-- Python `s.strip()`: remove leading and trailing whitespace. -/
def pyStrip (s : String) : String :=
  ⟨((s.data.reverse.dropWhile Char.isWhitespace).reverse).dropWhile Char.isWhitespace⟩

/-- Python `s[:n]`: the first `n` characters. -/
def pyTake (s : String) (n : Nat) : String := ⟨s.data.take n⟩

/-- Python `len(s)` (code points). -/
def pyLen (s : String) : Nat := s.data.length

/-- Python `s.startswith(c)` for a single character. -/
def pyStartsWith (s : String) (c : Char) : Bool :=
  match s.data with
  | [] => false
  | x :: _ => x == c

/-- `p` occurs as a contiguous substring of `l`. -/
def listInfix (p l : List Char) : Bool :=
  l.tails.any (fun t => p.isPrefixOf t)

/-- Python `p in s`: substring containment. -/
def pyContains (s p : String) : Bool := listInfix p.data s.data

/-- Python `sep.join(parts)`. -/
def joinSep (sep : String) : List String → String
  | [] => ""
  | [x] => x
  | x :: y :: xs => x ++ sep ++ joinSep sep (y :: xs)

/-- Group a reversed digit list into blocks of three with commas. -/
def group3 : List Char → List Char
  | a :: b :: c :: d :: rest => a :: b :: c :: ',' :: group3 (d :: rest)
  | l => l

/-- Python `f"{n:,}"`: decimal rendering with thousands separators. -/
def commaFmt (n : Nat) : String :=
  ⟨(group3 (toString n).data.reverse).reverse⟩

/-- The `Tools.Valves` configuration (process-wide, read-only at request
time), plus the ambient fact of which auto-import modules load successfully
(`__import__` succeeding is an environment property, modelled as a predicate). -/
structure Valves where
  max_execution_time : Nat
  max_output_length : Nat
  sandbox_mode : Bool
  auto_imports : String
  blocked_patterns : String
  importable : String → Bool

/-- The per-instance mutable state of `Tools`: `self._state` (per-caller
persistent namespaces) and `self._exec_counts` (per-caller counters).
`none` means the key is absent from the underlying dict. -/
structure ToolsState where
  state : String → Option Dict
  execCounts : String → Option Nat

/-- The fresh `Tools()` instance: both maps empty. -/
def initialState : ToolsState :=
  { state := fun _ => none, execCounts := fun _ => none }

/-- `Tools._user_state`: inserts an empty dict for `uid` when absent, and
returns the (possibly updated) state together with the caller's dict. -/
def _user_state (uid : String) (ts : ToolsState) : ToolsState × Dict :=
  match ts.state uid with
  | some d => (ts, d)
  | none =>
    ({ ts with state := fun u => if u == uid then some [] else ts.state u }, [])

/-- The trimmed, non-empty entries of a comma-separated configuration string
(the `[p.strip() for p in s.split(",") if p.strip()]` idiom). -/
def parseCommaList (s : String) : List String :=
  ((pySplit s ',').map pyStrip).filter (fun p => p ≠ "")

/-- `Tools._validate`: with sandbox mode off, no issues; otherwise one
`Blocked: ...` line per configured pattern occurring verbatim in the code. -/
def _validate (v : Valves) (code : String) : List String :=
  if !v.sandbox_mode then []
  else ((parseCommaList v.blocked_patterns).filter
      (fun p => pyContains code p)).map
      (fun p => "Blocked: `" ++ p ++ "`")

/-- `Tools._build_namespace`: `__builtins__`, then the auto-import modules
(silently skipping those that fail to import), then the caller's persisted
variables, then the two utility helpers, in exactly that insertion order. -/
def _build_namespace (v : Valves) (user_state : Dict) : Dict :=
  let ns0 : Dict := [("__builtins__", PyVal.builtinsObj)]
  let ns1 := (parseCommaList v.auto_imports).foldl
    (fun ns m => if v.importable m then dinsert ns m (PyVal.module m) else ns) ns0
  let ns2 := user_state.foldl (fun ns kv => dinsert ns kv.1 kv.2) ns1
  let ns3 := dinsert ns2 "quick_stats" (PyVal.builtinFunc "quick_stats")
  dinsert ns3 "as_table" (PyVal.builtinFunc "as_table")

/-- How `exec(code, ns)` ended, as observed by the coordinator. -/
inductive Outcome where
  | ok
  | raised (trace : String)
  | timeout
deriving DecidableEq, Repr

/-- The observable behavior of one snippet execution: what it wrote to the
redirected stdout buffer, the namespace bindings it had established (in
order) by the time the coordinator resumed — on success, at the raise, or at
the timeout — and the rendered elapsed wall-clock time. -/
structure SnipBehavior where
  stdout : String
  updates : List (String × PyVal)
  outcome : Outcome
  elapsedStr : String

/-- Apply the snippet's in-place mutations to the assembled namespace dict. -/
def applyUpdates (ns : Dict) (ups : List (String × PyVal)) : Dict :=
  ups.foldl (fun d kv => dinsert d kv.1 kv.2) ns

/-- The `-- persist requested vars --` loop: for each stripped non-empty
name in `save_vars`, in order, copy `ns[name]` into the caller's dict when
the name is bound and does not start with an underscore; return the updated
dict and the list of names actually saved. -/
def persistLoop (ns : Dict) (names : List String) (d : Dict) : Dict × List String :=
  match names with
  | [] => (d, [])
  | n :: rest =>
    match dget ns n with
    | none => persistLoop ns rest d
    | some val =>
      if pyStartsWith n '_' then persistLoop ns rest d
      else
        let r := persistLoop ns rest (dinsert d n val)
        (r.1, n :: r.2)

/-- The `-- build response --` block: the `parts` list, in source order. -/
def responseParts (v : Valves) (stdout : String) (error : Option String)
    (saved : List String) (showTime : Bool) (count : Nat)
    (elapsedStr : String) : List String :=
  let parts : List String := []
  let parts := if stdout ≠ "" then
      parts ++ [("**Output:**\n```\n" ++
        (let text := pyTake stdout v.max_output_length
         if pyLen stdout > v.max_output_length then
           text ++ "\n... truncated (" ++ commaFmt (pyLen stdout) ++ " total chars)"
         else text) ++ "\n```")]
    else parts
  let parts := match error with
    | some e => parts ++ ["**Error:**\n```\n" ++ e ++ "\n```"]
    | none => parts
  let parts := if saved ≠ [] then
      parts ++ ["**Saved:** " ++ joinSep ", " (saved.map (fun n => "`" ++ n ++ "`"))]
    else parts
  let parts := if showTime then
      parts ++ ["*Execution #" ++ toString count ++ " — " ++ elapsedStr ++ "s*"]
    else parts
  if parts = [] then ["*Executed successfully (no output).*"] else parts

/-- `Tools.execute_code`, as a pure function of the configuration, the
snippet's behavior `b`, the arguments, the caller id (the result of
`_uid(__user__)`), the caller's `show_execution_time` preference, and the
instance state.  Returns the formatted report and the new instance state. -/
def execute_code (v : Valves) (b : SnipBehavior) (code save_vars : String)
    (uid : String) (showTime : Bool) (ts : ToolsState) : String × ToolsState :=
  let r0 := _user_state uid ts
  let ts1 := r0.1
  let state := r0.2
  let issues := _validate v code
  if issues ≠ [] then
    ("**Sandbox violation:**\n" ++ joinSep "\n" (issues.map (fun i => "- " ++ i)), ts1)
  else
    let ns := _build_namespace v state
    let ns' := applyUpdates ns b.updates
    let error : Option String := match b.outcome with
      | Outcome.ok => none
      | Outcome.raised tr => some tr
      | Outcome.timeout => some ("Timed out after " ++ toString v.max_execution_time ++ "s")
    let stdout := b.stdout
    let pr := persistLoop ns' (parseCommaList save_vars) state
    let newDict := pr.1
    let saved := pr.2
    let newCount := (ts1.execCounts uid).getD 0 + 1
    let ts2 : ToolsState :=
      { state := fun u => if u == uid then some newDict else ts1.state u,
        execCounts := fun u => if u == uid then some newCount else ts1.execCounts u }
    (joinSep "\n\n" (responseParts v stdout error saved showTime newCount b.elapsedStr), ts2)

/-- A stand-in for `sys.getsizeof`: some fixed size per value shape (the
actual byte counts are a CPython memory-layout detail; no claim depends on
them, only on their being a function of the value). -/
def pySizeof : PyVal → Nat
  | PyVal.int _ => 28
  | PyVal.str s => 49 + pyLen s
  | PyVal.module _ => 72
  | PyVal.builtinFunc _ => 72
  | PyVal.builtinsObj => 72

/-- Python `repr` on the modelled values. -/
def pyRepr : PyVal → String
  | PyVal.int n => toString n
  | PyVal.str s => "'" ++ s ++ "'"
  | PyVal.module m => "<module '" ++ m ++ "'>"
  | PyVal.builtinFunc f => "<function " ++ f ++ ">"
  | PyVal.builtinsObj => "<module 'builtins'>"

/-- Python `type(v).__name__` on the modelled values. -/
def pyTypeName : PyVal → String
  | PyVal.int _ => "int"
  | PyVal.str _ => "str"
  | PyVal.module _ => "module"
  | PyVal.builtinFunc _ => "function"
  | PyVal.builtinsObj => "module"

/-- `Tools.view_state`: the introspection call. -/
def view_state (uid : String) (ts : ToolsState) : String × ToolsState :=
  let r0 := _user_state uid ts
  let ts1 := r0.1
  let state := r0.2
  let count := (ts1.execCounts uid).getD 0
  if state = [] then
    ("No saved variables yet. (" ++ toString count ++ " total executions)", ts1)
  else
    let lines := ["**Persistent State** — " ++ toString state.length ++
        " variable(s), " ++ toString count ++ " execution(s)\n",
      "| Variable | Type | Size | Preview |",
      "|----------|------|------|---------|"] ++
      state.map (fun kv =>
        let preview := pyRepr kv.2
        let preview := if pyLen preview > 60 then pyTake preview 57 ++ "..." else preview
        "| `" ++ kv.1 ++ "` | `" ++ pyTypeName kv.2 ++ "` | " ++
          commaFmt (pySizeof kv.2) ++ "B | `" ++ preview ++ "` |")
    (joinSep "\n" lines, ts1)

/-- `Tools.clear_state`: drop the caller's variables and zero its counter. -/
def clear_state (uid : String) (ts : ToolsState) : String × ToolsState :=
  let n := ((ts.state uid).getD []).length
  let ts' : ToolsState :=
    { state := fun u => if u == uid then some [] else ts.state u,
      execCounts := fun u => if u == uid then some 0 else ts.execCounts u }
  ("Cleared " ++ toString n ++ " variable(s) and reset execution counter.", ts')

/-- One invocation of the tool, as issued by some caller: the three public
methods with their per-call arguments (for an execution, the abstracted
snippet behavior travels with the request). -/
inductive Op where
  | exec (b : SnipBehavior) (code save_vars : String) (showTime : Bool)
  | view
  | clear

/-- Dispatch one operation issued by caller `uid`. -/
def applyOp (v : Valves) (uid : String) (op : Op) (ts : ToolsState) :
    String × ToolsState :=
  match op with
  | Op.exec b code save_vars showTime => execute_code v b code save_vars uid showTime ts
  | Op.view => view_state uid ts
  | Op.clear => clear_state uid ts

/-- Run a sequence of operations, all issued by caller `uid`, discarding the
returned report strings. -/
def applyOps (v : Valves) (uid : String) (ops : List Op) (ts : ToolsState) :
    ToolsState :=
  ops.foldl (fun s op => (applyOp v uid op s).2) ts

/-- Everything caller `uid` owns in the instance state. -/
def proj (uid : String) (ts : ToolsState) : Option Dict × Option Nat :=
  (ts.state uid, ts.execCounts uid)

/-- The result record of `_quick_stats`. -/
structure QuickStats where
  count : Nat
  sum : ℚ
  mean : ℚ
  min : ℚ
  max : ℚ
  median : ℚ
deriving DecidableEq, Repr

/-- `_quick_stats`: `{}` (here `none`) on the empty list, else the six
summary statistics computed on the sorted copy, with the Python
`s[n // 2] if n % 2 else (s[n // 2 - 1] + s[n // 2]) / 2` median. -/
def _quick_stats (numbers : List ℚ) : Option QuickStats :=
  if numbers = [] then none
  else
    let s := numbers.insertionSort (· ≤ ·)
    let n := numbers.length
    some { count := n, sum := s.sum, mean := s.sum / (n : ℚ),
           min := s.headD 0, max := s.getLastD 0,
           median := if n % 2 = 1 then s.getD (n / 2) 0
             else (s.getD (n / 2 - 1) 0 + s.getD (n / 2) 0) / 2 }

/-- Python `str(value)` on the modelled values (`str` of a Python string is
itself, unquoted, unlike `repr`). -/
def pyStr : PyVal → String
  | PyVal.int n => toString n
  | PyVal.str s => s
  | PyVal.module m => "<module '" ++ m ++ "'>"
  | PyVal.builtinFunc f => "<function " ++ f ++ ">"
  | PyVal.builtinsObj => "<module 'builtins'>"

/-- Python `str.ljust`: pad on the right with spaces to width `w`. -/
def ljust (s : String) (w : Nat) : String :=
  s ++ ⟨List.replicate (w - pyLen s) ' '⟩

/-- `row.get(h, "")` followed by `str(...)`, as `_as_table` does per cell. -/
def cellStr (row : Dict) (h : String) : String :=
  pyStr ((dget row h).getD (PyVal.str ""))

/-- The `lines` list `_as_table` builds for non-empty data: optional title,
header row, separator row, one row per record, with each column as wide as
its widest cell or header. -/
def asTableLines (data : List Dict) (title : String) : List String :=
  let headers := (data.headD []).map (fun p => p.1)
  let widths := headers.map (fun h =>
    (data.map (fun row => pyLen (cellStr row h))).foldl max (pyLen h))
  (if title ≠ "" then ["**" ++ title ++ "**\n"] else []) ++
  ["| " ++ joinSep " | " ((headers.zip widths).map (fun hw => ljust hw.1 hw.2)) ++ " |"] ++
  ["| " ++ joinSep " | " (widths.map (fun w => ⟨List.replicate w '-'⟩)) ++ " |"] ++
  data.map (fun row =>
    "| " ++ joinSep " | " ((headers.zip widths).map
      (fun hw => ljust (cellStr row hw.1) hw.2)) ++ " |")

/-- `_as_table`: the literal `(empty)` marker on empty input, else the
joined table (the function also prints the same string to the captured
stdout; that side effect is part of the snippet's stdout, not modelled here). -/
def _as_table (data : List Dict) (title : String) : String :=
  if data = [] then "(empty)"
  else joinSep "\n" (asTableLines data title)

/-- The caller's execution counter as user-visible reads see it
(`self._exec_counts.get(uid, 0)`). -/
def countOf (uid : String) (ts : ToolsState) : Nat :=
  (ts.execCounts uid).getD 0

/-- The caller's persistent variable dict (`self._state.get(uid, {})`). -/
def userDict (uid : String) (ts : ToolsState) : Dict :=
  (ts.state uid).getD []

/-- The default `Valves()` (every stdlib module in the default auto-import
list imports successfully). -/
def defaultValves : Valves :=
  { max_execution_time := 30
    max_output_length := 10000
    sandbox_mode := true
    auto_imports := "math,random,json,datetime,collections,itertools,re,statistics,textwrap,functools,hashlib,base64"
    blocked_patterns := "import os,import subprocess,import shutil,import socket,import http.client,__import__,importlib,open(,compile("
    importable := fun _ => true }

/-! ### Dictionary lemmas -/

theorem dget_dinsert (d : Dict) (k : String) (v : PyVal) (n : String) :
    dget (dinsert d k v) n = if n = k then some v else dget d n := by
  induction d with
  | nil =>
    by_cases h : n = k
    · subst h; simp [dinsert, dget]
    · simp [dinsert, dget, h, Ne.symm h]
  | cons p ps ih =>
    by_cases hpk : p.1 = k
    · by_cases hnk : n = k
      · subst hnk; simp [dinsert, dget, hpk]
      · simp [dinsert, dget, hpk, hnk, Ne.symm hnk]
    · by_cases hnp : n = p.1
      · have hnk : ¬ n = k := fun h => hpk (hnp ▸ h)
        simp [dinsert, dget, hpk, hnp.symm, hnk]
      · have hpn : p.1 ≠ n := fun h => hnp h.symm
        simp [dinsert, dget, hpk, hpn, ih]

theorem dget_foldl_dinsert_not_mem (l : List (String × PyVal)) (d : Dict)
    (n : String) (h : n ∉ l.map Prod.fst) :
    dget (l.foldl (fun d kv => dinsert d kv.1 kv.2) d) n = dget d n := by
  induction l generalizing d with
  | nil => rfl
  | cons kv rest ih =>
    simp only [List.map_cons, List.mem_cons] at h
    push_neg at h
    simp only [List.foldl_cons]
    rw [ih _ h.2, dget_dinsert, if_neg h.1]

theorem dget_foldl_dinsert_mem (l : List (String × PyVal)) (d : Dict)
    (n : String) (v : PyVal) (hnodup : (l.map Prod.fst).Nodup)
    (hmem : (n, v) ∈ l) :
    dget (l.foldl (fun d kv => dinsert d kv.1 kv.2) d) n = some v := by
  induction l generalizing d with
  | nil => exact absurd hmem (List.not_mem_nil _)
  | cons kv rest ih =>
    simp only [List.map_cons, List.nodup_cons] at hnodup
    simp only [List.foldl_cons]
    rcases List.mem_cons.mp hmem with rfl | h
    · rw [dget_foldl_dinsert_not_mem _ _ _ hnodup.1, dget_dinsert, if_pos rfl]
    · exact ih _ hnodup.2 h

/-! ### `_user_state` lemmas -/

theorem _user_state_execCounts (uid : String) (ts : ToolsState) :
    (_user_state uid ts).1.execCounts = ts.execCounts := by
  unfold _user_state
  cases ts.state uid <;> rfl

theorem _user_state_state_self (uid : String) (ts : ToolsState) :
    (_user_state uid ts).1.state uid = some (_user_state uid ts).2 := by
  unfold _user_state
  cases h : ts.state uid <;> simp [h]

theorem _user_state_state_other (uid a : String) (ts : ToolsState)
    (h : a ≠ uid) : (_user_state uid ts).1.state a = ts.state a := by
  unfold _user_state
  cases hs : ts.state uid <;> simp [hs, h]

theorem _user_state_snd (uid : String) (ts : ToolsState) :
    (_user_state uid ts).2 = userDict uid ts := by
  unfold _user_state userDict
  cases h : ts.state uid <;> simp [h]

/-! ### `joinSep` lemmas -/

theorem string_eq_of_data (a b : String) (h : a.data = b.data) : a = b :=
  congrArg String.mk h

theorem joinSep_cons_exists (sep x : String) (xs : List String) :
    ∃ rest, joinSep sep (x :: xs) = x ++ rest := by
  cases xs with
  | nil =>
    refine ⟨"", ?_⟩
    apply string_eq_of_data
    simp [joinSep]
  | cons y ys =>
    refine ⟨sep ++ joinSep sep (y :: ys), ?_⟩
    apply string_eq_of_data
    simp [joinSep]

theorem joinSep_mem_exists (sep p : String) (l : List String) (h : p ∈ l) :
    ∃ pre post, joinSep sep l = pre ++ p ++ post := by
  induction l with
  | nil => exact absurd h (List.not_mem_nil _)
  | cons x xs ih =>
    rcases List.mem_cons.mp h with h' | h'
    · subst h'
      obtain ⟨rest, hr⟩ := joinSep_cons_exists sep p xs
      refine ⟨"", rest, ?_⟩
      rw [hr]
      apply string_eq_of_data
      simp
    · obtain ⟨pre, post, hpp⟩ := ih h'
      cases xs with
      | nil => exact absurd h' (List.not_mem_nil _)
      | cons y ys =>
        refine ⟨x ++ sep ++ pre, post, ?_⟩
        apply string_eq_of_data
        have hd := congrArg String.data hpp
        simp only [String.data_append] at hd
        simp only [joinSep, String.data_append, hd, List.append_assoc]

/-! ### `persistLoop` lemma: pointwise description of the persisted dict -/

theorem dget_persistLoop (ns : Dict) (names : List String) :
    ∀ (d : Dict) (n : String),
      dget (persistLoop ns names d).1 n =
        if n ∈ names ∧ (dget ns n).isSome ∧ pyStartsWith n '_' = false
        then dget ns n else dget d n := by
  induction names with
  | nil => intro d n; simp [persistLoop]
  | cons m rest ih =>
    intro d n
    by_cases hnm : n = m
    · subst hnm
      cases hns : dget ns n with
      | none => simp [persistLoop, hns, ih]
      | some val =>
        by_cases hus : pyStartsWith n '_'
        · simp [persistLoop, hns, hus, ih]
        · simp only [persistLoop, hns]
          rw [if_neg (by simp [hus])]
          rw [ih]
          by_cases hrest : n ∈ rest ∧ (dget ns n).isSome ∧ pyStartsWith n '_' = false
          · rw [if_pos hrest, if_pos ⟨List.mem_cons_self _ _, by simp [hns], by simp [hus]⟩]
            exact hns
          · rw [if_neg hrest, if_pos ⟨List.mem_cons_self _ _, by simp [hns], by simp [hus]⟩,
              dget_dinsert, if_pos rfl]
    · have hmem : (n ∈ m :: rest) = (n ∈ rest) := by
        simp [List.mem_cons, hnm]
      cases hns : dget ns m with
      | none => simp [persistLoop, hns, ih, hmem]
      | some val =>
        by_cases hus : pyStartsWith m '_'
        · simp [persistLoop, hns, hus, ih, hmem]
        · simp only [persistLoop, hns]
          rw [if_neg (by simp [hus])]
          rw [ih, dget_dinsert, if_neg hnm]
          simp [hmem]

/-! ### The instance state after an execution that passed validation -/

theorem execute_code_snd (v : Valves) (b : SnipBehavior)
    (code save_vars uid : String) (showTime : Bool) (ts : ToolsState)
    (h : _validate v code = []) :
    (execute_code v b code save_vars uid showTime ts).2 =
      { state := fun u => if u == uid then
            some (persistLoop (applyUpdates (_build_namespace v (userDict uid ts)) b.updates)
              (parseCommaList save_vars) (userDict uid ts)).1
          else (_user_state uid ts).1.state u,
        execCounts := fun u => if u == uid then some (countOf uid ts + 1)
          else ts.execCounts u } := by
  simp only [execute_code]
  rw [if_neg (by simp [h])]
  rw [_user_state_snd, _user_state_execCounts]
  simp only [countOf]

theorem execute_code_state_pointwise (v : Valves) (b : SnipBehavior)
    (code save_vars uid : String) (showTime : Bool) (ts : ToolsState)
    (h : _validate v code = []) (n : String) :
    dget (userDict uid (execute_code v b code save_vars uid showTime ts).2) n =
      if n ∈ parseCommaList save_vars ∧
          (dget (applyUpdates (_build_namespace v (userDict uid ts)) b.updates) n).isSome ∧
          pyStartsWith n '_' = false
      then dget (applyUpdates (_build_namespace v (userDict uid ts)) b.updates) n
      else dget (userDict uid ts) n := by
  rw [execute_code_snd v b code save_vars uid showTime ts h]
  simp only [userDict, beq_self_eq_true, if_true, Option.getD_some]
  rw [dget_persistLoop]

theorem countOf_execute_code (v : Valves) (b : SnipBehavior)
    (code save_vars uid : String) (showTime : Bool) (ts : ToolsState) :
    countOf uid (execute_code v b code save_vars uid showTime ts).2 =
      if _validate v code = [] then countOf uid ts + 1 else countOf uid ts := by
  by_cases h : _validate v code = []
  · rw [if_pos h]
    simp only [execute_code, countOf]
    rw [if_neg (by simp [h])]
    simp [_user_state_execCounts]
  · rw [if_neg h]
    simp only [execute_code, countOf]
    rw [if_pos (by simp [h])]
    simp [_user_state_execCounts]

/-- C1 (amended): the execution counter is incremented exactly once per
attempt that reaches the execution phase — uniformly for success, a raised
exception, and a timeout — but an attempt rejected by validation returns
before the counter update and leaves the counter unchanged. -/
theorem exec_counter_per_attempt (v : Valves) (b : SnipBehavior)
    (code save_vars uid : String) (showTime : Bool) (ts : ToolsState) :
    countOf uid (execute_code v b code save_vars uid showTime ts).2 =
      if _validate v code = [] then countOf uid ts + 1 else countOf uid ts :=
  countOf_execute_code v b code save_vars uid showTime ts

/-- C1 counterexample: a validation failure (denylisted `import os` with
sandbox mode on) does not increment the caller's execution counter, so the
counter does not increment uniformly for all four outcomes. -/
theorem exec_counter_validation_cex :
    countOf "u" (execute_code defaultValves
        ⟨"", [], Outcome.ok, "0.001"⟩ "import os" "" "u" true initialState).2 ≠
      countOf "u" initialState + 1 := by decide

/-- C4: after any completed execution (any outcome past validation), a name
is bound in the caller's persistent dict to the post-execution namespace
value exactly when it appears in the persistence list, is bound in the
post-execution namespace, and does not begin with an underscore; any other
name keeps its previous stored value (in particular, names not in the
persistence list are never persisted). -/
theorem persist_selective (v : Valves) (b : SnipBehavior)
    (code save_vars uid : String) (showTime : Bool) (ts : ToolsState)
    (h : _validate v code = []) (n : String) :
    dget (userDict uid (execute_code v b code save_vars uid showTime ts).2) n =
      if n ∈ parseCommaList save_vars ∧
          (dget (applyUpdates (_build_namespace v (userDict uid ts)) b.updates) n).isSome ∧
          pyStartsWith n '_' = false
      then dget (applyUpdates (_build_namespace v (userDict uid ts)) b.updates) n
      else dget (userDict uid ts) n :=
  execute_code_state_pointwise v b code save_vars uid showTime ts h n

/-- C4 witness: concrete run of `x = 1; y = 2` with persistence list `"x"`;
instantiated at the unrequested name `y`. -/
theorem persist_selective_witness :
    _validate defaultValves "x = 1\ny = 2" = [] ∧
    dget (userDict "u" (execute_code defaultValves
        ⟨"", [("x", PyVal.int 1), ("y", PyVal.int 2)], Outcome.ok, "0.002"⟩
        "x = 1\ny = 2" "x" "u" true initialState).2) "y" =
      if "y" ∈ parseCommaList "x" ∧
          (dget (applyUpdates (_build_namespace defaultValves (userDict "u" initialState))
            [("x", PyVal.int 1), ("y", PyVal.int 2)]) "y").isSome ∧
          pyStartsWith "y" '_' = false
      then dget (applyUpdates (_build_namespace defaultValves (userDict "u" initialState))
            [("x", PyVal.int 1), ("y", PyVal.int 2)]) "y"
      else dget (userDict "u" initialState) "y" :=
  ⟨by decide, persist_selective defaultValves
    ⟨"", [("x", PyVal.int 1), ("y", PyVal.int 2)], Outcome.ok, "0.002"⟩
    "x = 1\ny = 2" "x" "u" true initialState (by decide) "y"⟩

/-- C3: when validation finds at least one denylisted substring (which can
only happen with sandbox mode on), the returned report is the sandbox
violation message listing every matched entry, every configured pattern
occurring in the snippet is listed, the caller's execution counter is
unchanged, and the snippet is never executed: the call's entire result is
independent of the snippet's behavior. -/
theorem sandbox_blocks (v : Valves) (b : SnipBehavior)
    (code save_vars uid : String) (showTime : Bool) (ts : ToolsState)
    (h : _validate v code ≠ []) :
    (execute_code v b code save_vars uid showTime ts).1 =
        "**Sandbox violation:**\n" ++
          joinSep "\n" ((_validate v code).map (fun i => "- " ++ i)) ∧
    (∀ p, p ∈ parseCommaList v.blocked_patterns → pyContains code p = true →
        ("Blocked: `" ++ p ++ "`") ∈ _validate v code) ∧
    countOf uid (execute_code v b code save_vars uid showTime ts).2 = countOf uid ts ∧
    ∀ b', execute_code v b' code save_vars uid showTime ts =
        execute_code v b code save_vars uid showTime ts := by
  refine ⟨?_, ?_, ?_, ?_⟩
  · simp only [execute_code]
    rw [if_pos (by simp [h])]
  · intro p hp hc
    unfold _validate at h ⊢
    by_cases hs : v.sandbox_mode
    · simp only [hs, Bool.not_true, if_false]
      exact List.mem_map_of_mem _ (List.mem_filter.mpr ⟨hp, by simp [hc]⟩)
    · simp [hs] at h
  · rw [countOf_execute_code, if_neg h]
  · intro b'
    simp only [execute_code]
    rw [if_pos (by simp [h]), if_pos (by simp [h])]

/-- C3 witness: a snippet containing two denylisted substrings, run as
caller `u` against the fresh instance. -/
theorem sandbox_blocks_witness :
    _validate defaultValves "import os\nopen('f')" ≠ [] ∧
    ((execute_code defaultValves ⟨"", [], Outcome.ok, "0.001"⟩
        "import os\nopen('f')" "" "u" true initialState).1 =
        "**Sandbox violation:**\n" ++
          joinSep "\n" ((_validate defaultValves "import os\nopen('f')").map
            (fun i => "- " ++ i)) ∧
      (∀ p, p ∈ parseCommaList defaultValves.blocked_patterns →
          pyContains "import os\nopen('f')" p = true →
          ("Blocked: `" ++ p ++ "`") ∈ _validate defaultValves "import os\nopen('f')") ∧
      countOf "u" (execute_code defaultValves ⟨"", [], Outcome.ok, "0.001"⟩
          "import os\nopen('f')" "" "u" true initialState).2 = countOf "u" initialState ∧
      ∀ b', execute_code defaultValves b' "import os\nopen('f')" "" "u" true initialState =
          execute_code defaultValves ⟨"", [], Outcome.ok, "0.001"⟩
            "import os\nopen('f')" "" "u" true initialState) :=
  ⟨by decide, sandbox_blocks defaultValves ⟨"", [], Outcome.ok, "0.001"⟩
    "import os\nopen('f')" "" "u" true initialState (by decide)⟩

theorem error_mem_responseParts (v : Valves) (stdout e : String)
    (saved : List String) (showTime : Bool) (count : Nat) (elapsed : String) :
    ("**Error:**\n```\n" ++ e ++ "\n```") ∈
      responseParts v stdout (some e) saved showTime count elapsed := by
  unfold responseParts
  by_cases h1 : stdout ≠ "" <;> by_cases h2 : saved ≠ [] <;> by_cases h3 : showTime <;>
    simp [h1, h2, h3]

/-- C2 (amended): a snippet whose execution exceeds the configured maximum
duration yields a report containing the timeout error naming the configured
bound; however, bindings the snippet had already made before the timeout ARE
subject to the normal persistence step, so a partially-bound variable named
in the persistence list (and not starting with an underscore) is persisted
into the caller's stored state. -/
theorem timeout_reports_bound (v : Valves) (b : SnipBehavior)
    (code save_vars uid : String) (showTime : Bool) (ts : ToolsState)
    (hto : b.outcome = Outcome.timeout) (h : _validate v code = []) :
    (∃ pre post, (execute_code v b code save_vars uid showTime ts).1 =
        pre ++ ("**Error:**\n```\n" ++
          ("Timed out after " ++ toString v.max_execution_time ++ "s") ++ "\n```") ++ post) ∧
    ∀ n, dget (userDict uid (execute_code v b code save_vars uid showTime ts).2) n =
      if n ∈ parseCommaList save_vars ∧
          (dget (applyUpdates (_build_namespace v (userDict uid ts)) b.updates) n).isSome ∧
          pyStartsWith n '_' = false
      then dget (applyUpdates (_build_namespace v (userDict uid ts)) b.updates) n
      else dget (userDict uid ts) n := by
  constructor
  · simp only [execute_code]
    rw [if_neg (by simp [h])]
    simp only [hto]
    exact joinSep_mem_exists "\n\n" _ _ (error_mem_responseParts v b.stdout
      ("Timed out after " ++ toString v.max_execution_time ++ "s") _ showTime _ b.elapsedStr)
  · exact fun n => execute_code_state_pointwise v b code save_vars uid showTime ts h n

/-- C2 counterexample: a timed-out snippet that had bound `x = 1` before the
timeout, with persistence list `"x"`: starting from a fresh instance, `x` IS
persisted into the caller's stored state from the partial execution, which
the claim says must not happen. -/
theorem timeout_partial_persist_cex :
    initialState.state "u" = none ∧
    dget (userDict "u" (execute_code defaultValves
        ⟨"", [("x", PyVal.int 1)], Outcome.timeout, "30.001"⟩
        "x = 1\nwhile True: pass" "x" "u" true initialState).2) "x" =
      some (PyVal.int 1) := ⟨rfl, by decide⟩

/-- C2 witness: the amended statement applied to the concrete timed-out run. -/
theorem timeout_reports_bound_witness :
    (∃ pre post, (execute_code defaultValves
        ⟨"", [("x", PyVal.int 1)], Outcome.timeout, "30.001"⟩
        "x = 1\nwhile True: pass" "x" "u" true initialState).1 =
        pre ++ ("**Error:**\n```\n" ++
          ("Timed out after " ++ toString defaultValves.max_execution_time ++ "s") ++
          "\n```") ++ post) ∧
    ∀ n, dget (userDict "u" (execute_code defaultValves
        ⟨"", [("x", PyVal.int 1)], Outcome.timeout, "30.001"⟩
        "x = 1\nwhile True: pass" "x" "u" true initialState).2) n =
      if n ∈ parseCommaList "x" ∧
          (dget (applyUpdates (_build_namespace defaultValves (userDict "u" initialState))
            [("x", PyVal.int 1)]) n).isSome ∧
          pyStartsWith n '_' = false
      then dget (applyUpdates (_build_namespace defaultValves (userDict "u" initialState))
            [("x", PyVal.int 1)]) n
      else dget (userDict "u" initialState) n :=
  timeout_reports_bound defaultValves ⟨"", [("x", PyVal.int 1)], Outcome.timeout, "30.001"⟩
    "x = 1\nwhile True: pass" "x" "u" true initialState rfl (by decide)

/-! ### Noninterference infrastructure for caller isolation -/

theorem execute_code_snd_blocked (v : Valves) (b : SnipBehavior)
    (code save_vars uid : String) (showTime : Bool) (ts : ToolsState)
    (h : _validate v code ≠ []) :
    (execute_code v b code save_vars uid showTime ts).2 = (_user_state uid ts).1 := by
  simp only [execute_code]
  rw [if_pos (by simp [h])]

theorem view_state_snd (uid : String) (ts : ToolsState) :
    (view_state uid ts).2 = (_user_state uid ts).1 := by
  simp only [view_state]
  split <;> rfl

theorem applyOp_other (v : Valves) (uid : String) (op : Op) (ts : ToolsState)
    (a : String) (h : a ≠ uid) :
    (applyOp v uid op ts).2.state a = ts.state a ∧
    (applyOp v uid op ts).2.execCounts a = ts.execCounts a := by
  cases op with
  | exec b code save_vars showTime =>
    simp only [applyOp]
    by_cases hv : _validate v code = []
    · rw [execute_code_snd v b code save_vars uid showTime ts hv]
      constructor
      · simp only [beq_iff_eq, h, if_false]
        exact _user_state_state_other uid a ts h
      · simp [h]
    · rw [execute_code_snd_blocked v b code save_vars uid showTime ts hv]
      exact ⟨_user_state_state_other uid a ts h, by rw [_user_state_execCounts]⟩
  | view =>
    simp only [applyOp]
    rw [view_state_snd]
    exact ⟨_user_state_state_other uid a ts h, by rw [_user_state_execCounts]⟩
  | clear =>
    simp only [applyOp, clear_state]
    constructor <;> simp [h]

theorem applyOp_out_congr (v : Valves) (uid : String) (op : Op)
    (ts ts' : ToolsState) (hst : ts.state uid = ts'.state uid)
    (hc : ts.execCounts uid = ts'.execCounts uid) :
    (applyOp v uid op ts).1 = (applyOp v uid op ts').1 := by
  cases op with
  | exec b code save_vars showTime =>
    simp only [applyOp, execute_code]
    by_cases hv : _validate v code = []
    · rw [if_neg (by simp [hv]), if_neg (by simp [hv])]
      simp only [_user_state_snd, _user_state_execCounts, userDict]
      rw [hst, hc]
    · rw [if_pos (by simp [hv]), if_pos (by simp [hv])]
  | view =>
    simp only [applyOp, view_state, _user_state_snd, _user_state_execCounts, userDict]
    rw [hst, hc]
    simp only [apply_ite Prod.fst]
  | clear =>
    simp only [applyOp, clear_state]
    rw [hst]

/-- C5: distinct-caller isolation. Any sequence of operations (executions,
introspections, resets) performed as caller `a` leaves caller `b`'s
persistent namespace and execution counter untouched, and leaves the result
of any subsequent caller-`b` operation — execution, introspection, or reset —
exactly what it would have been without the caller-`a` activity. -/
theorem caller_isolation (v : Valves) (a b : String) (hab : a ≠ b)
    (aOps : List Op) (bop : Op) (ts : ToolsState) :
    proj b (applyOps v a aOps ts) = proj b ts ∧
    (applyOp v b bop (applyOps v a aOps ts)).1 = (applyOp v b bop ts).1 := by
  have hpp : ∀ ts0, proj b (applyOps v a aOps ts0) = proj b ts0 := by
    induction aOps with
    | nil => intro ts0; rfl
    | cons op rest ih =>
      intro ts0
      have h1 := applyOp_other v a op ts0 b (Ne.symm hab)
      have step : applyOps v a (op :: rest) ts0 =
          applyOps v a rest (applyOp v a op ts0).2 := by
        simp [applyOps]
      rw [step, ih]
      unfold proj
      rw [h1.1, h1.2]
  refine ⟨hpp ts, ?_⟩
  have hst : (applyOps v a aOps ts).state b = ts.state b :=
    congrArg Prod.fst (hpp ts)
  have hc : (applyOps v a aOps ts).execCounts b = ts.execCounts b :=
    congrArg Prod.snd (hpp ts)
  exact applyOp_out_congr v b bop _ ts hst hc

/-- C5 witness: caller `alice` persists a variable named `secret` and
inspects her state; caller `bob`'s subsequent introspection is unaffected. -/
theorem caller_isolation_witness :
    proj "bob" (applyOps defaultValves "alice"
      [Op.exec ⟨"", [("secret", PyVal.int 42)], Outcome.ok, "0.001"⟩
        "secret = 42" "secret" true, Op.view] initialState) = proj "bob" initialState ∧
    (applyOp defaultValves "bob" Op.view (applyOps defaultValves "alice"
      [Op.exec ⟨"", [("secret", PyVal.int 42)], Outcome.ok, "0.001"⟩
        "secret = 42" "secret" true, Op.view] initialState)).1 =
      (applyOp defaultValves "bob" Op.view initialState).1 :=
  caller_isolation defaultValves "alice" "bob" (by decide)
    [Op.exec ⟨"", [("secret", PyVal.int 42)], Outcome.ok, "0.001"⟩
      "secret = 42" "secret" true, Op.view] Op.view initialState

/-- C6 (amended): when an execution produces no captured output, no error
and no saved variables, the assembled response is the timing line alone when
the caller's display preference shows timing (the default), and is the
literal "Executed successfully (no output)" message only when the timing
line is disabled; in neither case is the response empty. -/
theorem no_output_fallback (v : Valves) (b : SnipBehavior)
    (code save_vars uid : String) (showTime : Bool) (ts : ToolsState)
    (hout : b.stdout = "") (hok : b.outcome = Outcome.ok)
    (h : _validate v code = [])
    (hsaved : (persistLoop (applyUpdates (_build_namespace v (userDict uid ts)) b.updates)
        (parseCommaList save_vars) (userDict uid ts)).2 = []) :
    (execute_code v b code save_vars uid showTime ts).1 =
      if showTime then
        "*Execution #" ++ toString (countOf uid ts + 1) ++ " — " ++ b.elapsedStr ++ "s*"
      else "*Executed successfully (no output).*" := by
  simp only [execute_code]
  rw [if_neg (by simp [h])]
  rw [_user_state_snd, _user_state_execCounts]
  simp only [hok, hout, hsaved, responseParts]
  by_cases hst : showTime <;> simp [hst, joinSep, countOf]

/-- C6 counterexample: a concrete execution with no output, no error and no
saved variables, with the (default) timing display on: the response is the
timing line, not the literal no-output message. -/
theorem no_output_fallback_cex :
    (execute_code defaultValves ⟨"", [], Outcome.ok, "0.001"⟩
        "pass" "" "u" true initialState).1 ≠
      "*Executed successfully (no output).*" ∧
    (execute_code defaultValves ⟨"", [], Outcome.ok, "0.001"⟩
        "pass" "" "u" true initialState).1 =
      "*Execution #1 — 0.001s*" := ⟨by decide, by decide⟩

/-- C6 witness: the amended statement at a concrete run with the timing
line disabled, where the literal message is produced. -/
theorem no_output_fallback_witness :
    (execute_code defaultValves ⟨"", [], Outcome.ok, "0.001"⟩
        "pass" "" "u" false initialState).1 =
      if false then
        "*Execution #" ++ toString (countOf "u" initialState + 1) ++ " — " ++ "0.001" ++ "s*"
      else "*Executed successfully (no output).*" :=
  no_output_fallback defaultValves ⟨"", [], Outcome.ok, "0.001"⟩
    "pass" "" "u" false initialState rfl rfl (by decide) (by decide)

/-! ### The output section of the report -/

theorem pyTake_of_le (s : String) (n : Nat) (h : pyLen s ≤ n) : pyTake s n = s :=
  string_eq_of_data _ _ (List.take_of_length_le h)

theorem responseParts_eq_cons (v : Valves) (stdout : String)
    (error : Option String) (saved : List String) (showTime : Bool)
    (count : Nat) (elapsed : String) (hne : stdout ≠ "") :
    responseParts v stdout error saved showTime count elapsed =
      ("**Output:**\n```\n" ++
        (if pyLen stdout > v.max_output_length then
          pyTake stdout v.max_output_length ++
            "\n... truncated (" ++ commaFmt (pyLen stdout) ++ " total chars)"
         else pyTake stdout v.max_output_length) ++ "\n```") ::
      ((match error with
        | some e => ["**Error:**\n```\n" ++ e ++ "\n```"]
        | none => []) ++
       (if saved ≠ [] then
          ["**Saved:** " ++ joinSep ", " (saved.map (fun n => "`" ++ n ++ "`"))]
        else []) ++
       (if showTime then
          ["*Execution #" ++ toString count ++ " — " ++ elapsed ++ "s*"]
        else [])) := by
  unfold responseParts
  cases error <;> by_cases h2 : saved ≠ [] <;> by_cases h3 : showTime <;>
    by_cases hl : pyLen stdout > v.max_output_length <;>
      simp [hne, h2, h3, hl]

/-- C7: for every successful execution with non-empty captured output, the
assembled response begins with the output section, whose text is the
captured stdout itself when its length is within the configured maximum,
and is the stdout truncated to the maximum followed by the
"... truncated (N total chars)" trailer exactly when the true length
strictly exceeds the maximum. -/
theorem output_truncation (v : Valves) (b : SnipBehavior)
    (code save_vars uid : String) (showTime : Bool) (ts : ToolsState)
    (h : _validate v code = []) (hok : b.outcome = Outcome.ok)
    (hne : b.stdout ≠ "") :
    ∃ rest, (execute_code v b code save_vars uid showTime ts).1 =
      "**Output:**\n```\n" ++
        (if pyLen b.stdout > v.max_output_length then
          pyTake b.stdout v.max_output_length ++
            "\n... truncated (" ++ commaFmt (pyLen b.stdout) ++ " total chars)"
         else b.stdout) ++ "\n```" ++ rest := by
  simp only [execute_code]
  rw [if_neg (by simp [h])]
  rw [responseParts_eq_cons v b.stdout _ _ showTime _ _ hne]
  obtain ⟨rest, hr⟩ := joinSep_cons_exists "\n\n" _ _
  rw [hr]
  by_cases hl : pyLen b.stdout > v.max_output_length
  · exact ⟨rest, by rw [if_pos hl, if_pos hl]⟩
  · refine ⟨rest, ?_⟩
    rw [if_neg hl, if_neg hl, pyTake_of_le _ _ (le_of_not_lt hl)]

/-- C7 witness: a concrete successful run printing `hi` (within the default
10000-character cap, so reported verbatim with no trailer). -/
theorem output_truncation_witness :
    ∃ rest, (execute_code defaultValves ⟨"hi\n", [], Outcome.ok, "0.001"⟩
        "print('hi')" "" "u" true initialState).1 =
      "**Output:**\n```\n" ++
        (if pyLen "hi\n" > defaultValves.max_output_length then
          pyTake "hi\n" defaultValves.max_output_length ++
            "\n... truncated (" ++ commaFmt (pyLen "hi\n") ++ " total chars)"
         else "hi\n") ++ "\n```" ++ rest :=
  output_truncation defaultValves ⟨"hi\n", [], Outcome.ok, "0.001"⟩
    "print('hi')" "" "u" true initialState (by decide) rfl (by decide)

/-! ### `_quick_stats` helper lemmas -/

theorem sorted_headD_le (s : List ℚ) (hs : s.Sorted (· ≤ ·)) :
    ∀ x ∈ s, s.headD 0 ≤ x := by
  cases s with
  | nil => intro x hx; cases hx
  | cons a t =>
    intro x hx
    rcases List.mem_cons.mp hx with rfl | h
    · simp
    · simpa using List.rel_of_sorted_cons hs x h

theorem sorted_le_getLastD (s : List ℚ) (hs : s.Sorted (· ≤ ·)) :
    ∀ x ∈ s, x ≤ s.getLastD 0 := by
  induction s with
  | nil => intro x hx; cases hx
  | cons a t ih =>
    intro x hx
    cases t with
    | nil =>
      rcases List.mem_cons.mp hx with rfl | h
      · simp [List.getLastD]
      · cases h
    | cons b t' =>
      have hs' := (List.sorted_cons.mp hs).2
      have hab := (List.sorted_cons.mp hs).1
      rw [List.getLastD_cons, List.getLastD_cons]
      rcases List.mem_cons.mp hx with rfl | h
      · have h1 := hab b (List.mem_cons_self _ _)
        have h2 := ih hs' b (List.mem_cons_self _ _)
        rw [List.getLastD_cons] at h2
        exact le_trans h1 h2
      · have h2 := ih hs' x h
        rwa [List.getLastD_cons] at h2

theorem headD_mem (s : List ℚ) (h : s ≠ []) : s.headD 0 ∈ s := by
  cases s with
  | nil => exact absurd rfl h
  | cons a t => simp

theorem getLastD_cons_mem (t : List ℚ) : ∀ (a d : ℚ), (a :: t).getLastD d ∈ a :: t := by
  induction t with
  | nil => intro a d; simp [List.getLastD]
  | cons b t' ih =>
    intro a d
    rw [List.getLastD_cons]
    exact List.mem_cons_of_mem a (ih b a)

theorem getLastD_mem (s : List ℚ) (h : s ≠ []) : s.getLastD 0 ∈ s := by
  cases s with
  | nil => exact absurd rfl h
  | cons a t => exact getLastD_cons_mem t a 0

/-- C8: `_quick_stats` returns the empty result on the empty list; on
`[1,2,3,4]` it returns count 4, sum 10, mean 5/2, min 1, max 4, median 5/2;
and on every non-empty list it returns the length, the sum, the arithmetic
mean, a minimum and maximum of the list, and the median computed by the
standard even/odd-length averaging rule on the sorted copy (stated for
every sorted permutation of the input). -/
theorem quick_stats_spec :
    _quick_stats [] = none ∧
    _quick_stats [1, 2, 3, 4] =
      some { count := 4, sum := 10, mean := 5/2, min := 1, max := 4, median := 5/2 } ∧
    ∀ l : List ℚ, l ≠ [] → ∃ qs, _quick_stats l = some qs ∧
      qs.count = l.length ∧ qs.sum = l.sum ∧ qs.mean = l.sum / (l.length : ℚ) ∧
      qs.min ∈ l ∧ (∀ x ∈ l, qs.min ≤ x) ∧ qs.max ∈ l ∧ (∀ x ∈ l, x ≤ qs.max) ∧
      ∀ s : List ℚ, s.Perm l → s.Sorted (· ≤ ·) →
        qs.median = (if l.length % 2 = 1 then s.getD (l.length / 2) 0
          else (s.getD (l.length / 2 - 1) 0 + s.getD (l.length / 2) 0) / 2) := by
  refine ⟨rfl, ?_, ?_⟩
  · have hsort4 : ([1, 2, 3, 4] : List ℚ).insertionSort (· ≤ ·) = [1, 2, 3, 4] := by
      decide
    unfold _quick_stats
    rw [if_neg (by decide : ¬([1, 2, 3, 4] : List ℚ) = [])]
    rw [hsort4]
    norm_num [QuickStats.mk.injEq, List.getD, List.getLastD_cons, List.getLastD]
  · intro l hl
    have hperm : (l.insertionSort (· ≤ ·)).Perm l := List.perm_insertionSort _ l
    have hsort : (l.insertionSort (· ≤ ·)).Sorted (· ≤ ·) :=
      List.sorted_insertionSort _ l
    have hne0 : l.insertionSort (· ≤ ·) ≠ [] := fun h => hl ((h ▸ hperm).symm.eq_nil)
    have heq : _quick_stats l = some
        { count := l.length, sum := (l.insertionSort (· ≤ ·)).sum,
          mean := (l.insertionSort (· ≤ ·)).sum / (l.length : ℚ),
          min := (l.insertionSort (· ≤ ·)).headD 0,
          max := (l.insertionSort (· ≤ ·)).getLastD 0,
          median := if l.length % 2 = 1 then (l.insertionSort (· ≤ ·)).getD (l.length / 2) 0
            else ((l.insertionSort (· ≤ ·)).getD (l.length / 2 - 1) 0 +
              (l.insertionSort (· ≤ ·)).getD (l.length / 2) 0) / 2 } := by
      simp [_quick_stats, hl]
    refine ⟨_, heq, rfl, hperm.sum_eq, by rw [hperm.sum_eq], ?_, ?_, ?_, ?_, ?_⟩
    · exact hperm.subset (headD_mem _ hne0)
    · exact fun x hx => sorted_headD_le _ hsort x (hperm.symm.subset hx)
    · exact hperm.subset (getLastD_mem _ hne0)
    · exact fun x hx => sorted_le_getLastD _ hsort x (hperm.symm.subset hx)
    · intro s hsp hss
      have hs : s = l.insertionSort (· ≤ ·) :=
        List.eq_of_perm_of_sorted (hsp.trans hperm.symm) hss hsort
      rw [hs]

/-- C8 witness: the general part applied to the concrete non-empty list
`[2, 7]`. -/
theorem quick_stats_spec_witness :
    ∃ qs, _quick_stats [2, 7] = some qs ∧
      qs.count = ([2, 7] : List ℚ).length ∧ qs.sum = ([2, 7] : List ℚ).sum ∧
      qs.mean = ([2, 7] : List ℚ).sum / (([2, 7] : List ℚ).length : ℚ) ∧
      qs.min ∈ ([2, 7] : List ℚ) ∧ (∀ x ∈ ([2, 7] : List ℚ), qs.min ≤ x) ∧
      qs.max ∈ ([2, 7] : List ℚ) ∧ (∀ x ∈ ([2, 7] : List ℚ), x ≤ qs.max) ∧
      ∀ s : List ℚ, s.Perm [2, 7] → s.Sorted (· ≤ ·) →
        qs.median = (if ([2, 7] : List ℚ).length % 2 = 1 then
            s.getD (([2, 7] : List ℚ).length / 2) 0
          else (s.getD (([2, 7] : List ℚ).length / 2 - 1) 0 +
            s.getD (([2, 7] : List ℚ).length / 2) 0) / 2) :=
  quick_stats_spec.2.2 [2, 7] (by decide)

theorem foldl_max_init (l : List Nat) : ∀ a : Nat, l.foldl max a = max a (l.foldl max 0) := by
  induction l with
  | nil => intro a; simp
  | cons x t ih =>
    intro a
    simp only [List.foldl_cons, Nat.zero_max]
    rw [ih (max a x), ih x, max_assoc]

/-- C9: `_as_table` returns the literal `(empty)` marker on the empty list;
on `[{"a": 1, "b": 2}]` with no title it returns exactly the 3-line table
with one-character columns; for every non-empty input with no title the
table has exactly one header line, one separator line and one line per
record; and every column's width is the maximum of the header length and
that column's cell lengths. -/
theorem as_table_spec :
    _as_table [] "" = "(empty)" ∧
    _as_table [[("a", PyVal.int 1), ("b", PyVal.int 2)]] "" =
      "| a | b |\n| - | - |\n| 1 | 2 |" ∧
    (∀ data : List Dict, data ≠ [] →
      (asTableLines data "").length = 2 + data.length ∧
      _as_table data "" = joinSep "\n" (asTableLines data "")) ∧
    ∀ (data : List Dict) (h : String),
      (data.map (fun row => pyLen (cellStr row h))).foldl max (pyLen h) =
        max (pyLen h) ((data.map (fun row => pyLen (cellStr row h))).foldl max 0) := by
  refine ⟨by decide, by decide, ?_, ?_⟩
  · intro data hd
    constructor
    · simp only [asTableLines, List.length_append, List.length_map, List.length_cons,
        List.length_nil]
      simp
    · simp [_as_table, hd]
  · intro data h
    exact foldl_max_init _ (pyLen h)

/-- C9 witness: the shape clause applied at the concrete single-record
table. -/
theorem as_table_spec_witness :
    (asTableLines [[("a", PyVal.int 1), ("b", PyVal.int 2)]] "").length =
      2 + ([[("a", PyVal.int 1), ("b", PyVal.int 2)]] : List Dict).length ∧
    _as_table [[("a", PyVal.int 1), ("b", PyVal.int 2)]] "" =
      joinSep "\n" (asTableLines [[("a", PyVal.int 1), ("b", PyVal.int 2)]] "") :=
  as_table_spec.2.2.1 [[("a", PyVal.int 1), ("b", PyVal.int 2)]] (by decide)

/-- C10: the namespace builder binds `quick_stats` and `as_table` to the
injected utility helpers after the persisted variables, so no persisted
variable can shadow either utility binding, while a persisted variable at
any other name (for instance an auto-loaded module's name) survives into
the namespace with its persisted value, shadowing the module binding. -/
theorem namespace_utility_bindings (v : Valves) (us : Dict)
    (hnd : (us.map Prod.fst).Nodup) :
    dget (_build_namespace v us) "quick_stats" = some (PyVal.builtinFunc "quick_stats") ∧
    dget (_build_namespace v us) "as_table" = some (PyVal.builtinFunc "as_table") ∧
    ∀ m val, m ≠ "quick_stats" → m ≠ "as_table" → (m, val) ∈ us →
      dget (_build_namespace v us) m = some val := by
  simp only [_build_namespace]
  refine ⟨?_, ?_, ?_⟩
  · rw [dget_dinsert, if_neg (by decide), dget_dinsert, if_pos rfl]
  · rw [dget_dinsert, if_pos rfl]
  · intro m val h1 h2 hmem
    rw [dget_dinsert, if_neg h2, dget_dinsert, if_neg h1]
    exact dget_foldl_dinsert_mem us _ m val hnd hmem

/-- C10 witness: a caller who persisted a variable named `math` (an
auto-loaded module name): the utilities are still the helpers and `math`
resolves to the persisted value. -/
theorem namespace_utility_bindings_witness :
    (([("math", PyVal.int 7)] : Dict).map Prod.fst).Nodup ∧
    (dget (_build_namespace defaultValves [("math", PyVal.int 7)]) "quick_stats" =
        some (PyVal.builtinFunc "quick_stats") ∧
      dget (_build_namespace defaultValves [("math", PyVal.int 7)]) "as_table" =
        some (PyVal.builtinFunc "as_table") ∧
      ∀ m val, m ≠ "quick_stats" → m ≠ "as_table" →
        (m, val) ∈ ([("math", PyVal.int 7)] : Dict) →
        dget (_build_namespace defaultValves [("math", PyVal.int 7)]) m = some val) :=
  ⟨by decide, namespace_utility_bindings defaultValves [("math", PyVal.int 7)] (by decide)⟩

end EnhancedCodeInterpreter
